import Mathlib

/-!
Shallow embedding of the algorithmic core of `src/trunk/click_config.py`:

* the multi-click classifier: `_handle_1button_press`, `_handle_2button_press`
  and `_handle_3button_press`, operating on the `_time_of_last_click` state
  (a Python list `[None, 0, 0, 0, 0, 0]` whose slots 1..5 hold the time of
  the most recent click confirmed at each level), and

* the span matcher `_find_text(source_text, pick_pos, word_re)`, a scanning
  loop over `word_re.search(source_text, pos)`.

Timestamps are modelled as rationals: the Python code only ever subtracts
and compares them, and every claim under scrutiny is about the order
relations of such values.  A compiled regular expression is modelled as a
`Regex`: a search function together with a match predicate; `Regex.Honest`
states the facts about `re.search` that `_find_text` relies on (a hit
starts at or after the search start, lies inside the text, and its
substring matches the pattern).  The example pattern `^.*\n` compiled with
`re.MULTILINE` is embedded concretely as `lineRegex`.
-/

/-- The five `time of last click` slots, i.e. `_time_of_last_click[1..5]`
of the Python list (index 0 of that list is an unused `None`). -/
structure ClickTimes where
  t1 : ℚ
  t2 : ℚ
  t3 : ℚ
  t4 : ℚ
  t5 : ℚ
  deriving DecidableEq

/-- The initial state `[None, 0, 0, 0, 0, 0]`: every slot holds the
sentinel value 0, meaning "no previous click". -/
def _time_of_last_click : ClickTimes := ⟨0, 0, 0, 0, 0⟩

/-- Result of one press handler call: `handled` (the event is consumed with
no click level emitted), `click` (the emitted click level, if any), and the
`_time_of_last_click` state after the call. -/
structure PressResult where
  handled : Bool
  click : Option ℕ
  times : ClickTimes
  deriving DecidableEq

/-- The interval test `now - self._time_of_last_click[k] < self._double_click_time`
used by every branch of the three handlers. -/
def withinInterval (interval now t : ℚ) : Bool := now - t < interval

/-- Python `_handle_1button_press(self, now)`: detect 5-click, 4-click, or
1-click; otherwise eat the signal. -/
def _handle_1button_press (interval : ℚ) (s : ClickTimes) (now : ℚ) : PressResult :=
  if withinInterval interval now s.t4 then ⟨false, some 5, { s with t5 := now }⟩
  else if withinInterval interval now s.t3 then ⟨false, some 4, { s with t4 := now }⟩
  else if withinInterval interval now s.t2 then ⟨true, none, s⟩
  else if withinInterval interval now s.t1 then ⟨true, none, s⟩
  else ⟨false, some 1, { s with t1 := now }⟩

/-- Python `_handle_2button_press(self, now)`: detect 2-click; otherwise
eat the signal. -/
def _handle_2button_press (interval : ℚ) (s : ClickTimes) (now : ℚ) : PressResult :=
  if withinInterval interval now s.t4 then ⟨true, none, s⟩
  else ⟨false, some 2, { s with t2 := now }⟩

/-- Python `_handle_3button_press(self, now)`: detect 3-click; otherwise
eat the signal. -/
def _handle_3button_press (interval : ℚ) (s : ClickTimes) (now : ℚ) : PressResult :=
  if withinInterval interval now s.t5 then ⟨true, none, s⟩
  else ⟨false, some 3, { s with t3 := now }⟩

/-- Slot accessor: `_time_of_last_click[L]` for `L` in 1..5 (any other
index reads as 0, matching the unused slot). -/
def ClickTimes.slot (s : ClickTimes) : ℕ → ℚ
  | 1 => s.t1
  | 2 => s.t2
  | 3 => s.t3
  | 4 => s.t4
  | 5 => s.t5
  | _ => 0

/-- The cursor update at the bottom of the `_find_text` loop:
`if pos < match_start: pos = match_start` followed by `pos += 1`. -/
def nextPos (pos s : ℕ) : ℕ := (if pos < s then s else pos) + 1

/-- A compiled pattern (`word_re`), abstracted by what `_find_text` uses of
it: `search t pos` models `word_re.search(t, pos)`, returning the span of
the leftmost match starting at or after `pos` (or `none`); `isMatch t s e`
models "`t[s:e]` is a match of the pattern". -/
structure Regex where
  search : List Char → ℕ → Option (ℕ × ℕ)
  isMatch : List Char → ℕ → ℕ → Bool

/-- The facts about `re.search` that a compiled pattern satisfies and that
`_find_text` relies on: a returned span starts at or after the search
start, lies within the text, and its substring matches the pattern. -/
def Regex.Honest (r : Regex) : Prop :=
  ∀ t pos s e, r.search t pos = some (s, e) →
    pos ≤ s ∧ s ≤ e ∧ e ≤ t.length ∧ r.isMatch t s e = true

/-- The scanning loop of `_find_text`, with an explicit iteration bound:
`findTextLoop r t pick fuel pos ms me` runs
`while pos != len(t): ...` for at most `fuel` iterations, carrying the
most recent `match_start`, `match_end` in `ms`, `me` (both initially 0).
`_find_text` supplies `fuel = len(t) + 2`, which is always enough for an
honest pattern (`claimC3_loop_terminates`), so the fuel is a faithful
rendering of the unbounded Python `while`. -/
def findTextLoop (r : Regex) (t : List Char) (pick : ℕ) :
    ℕ → ℕ → ℕ → ℕ → Bool × ℕ × ℕ
  | 0, _, ms, me => (false, ms, me)
  | fuel + 1, pos, ms, me =>
    if pos = t.length then (false, ms, me)
    else
      match r.search t pos with
      | none => (false, ms, me)
      | some (s, e) =>
        if s ≤ pick ∧ pick < e then (true, s, e)
        else if pick < s then (false, s, e)
        else findTextLoop r t pick fuel (nextPos pos s) s e

/-- Python `_find_text(self, source_text, pick_pos, word_re)`: find the
range of the first match for `word_re` within `source_text` that includes
the position `pick_pos`, returning `(found, match_start, match_end)`. -/
def _find_text (r : Regex) (t : List Char) (pick : ℕ) : Bool × ℕ × ℕ :=
  findTextLoop r t pick (t.length + 2) 0 0 0

/-- Position `i` of `t` is a line start: the start of the string, or the
position just after a newline.  These are exactly the positions where `^`
matches under `re.MULTILINE`. -/
def isLineStart (t : List Char) (i : ℕ) : Bool :=
  decide (i = 0) || decide (t.get? (i - 1) = some '\n')

/-- Scan positions `s, s+1, ...` (at most `fuel` of them) for the first
newline character; return its index. -/
def firstNlAux (t : List Char) : ℕ → ℕ → Option ℕ
  | _, 0 => none
  | s, fuel + 1 =>
    match t.get? s with
    | none => none
    | some c => if c = '\n' then some s else firstNlAux t (s + 1) fuel

/-- Index of the first newline of `t` at position `s` or later. -/
def firstNewlineFrom (t : List Char) (s : ℕ) : Option ℕ :=
  firstNlAux t s (t.length - s)

/-- End of the unique match of the pattern `^.*\n` (with `re.MULTILINE`)
that starts at `s`, if any: `s` must be a line start, `.*` cannot cross a
newline, so the match runs exactly through the first newline at or after
`s`. -/
def lineMatchAt (t : List Char) (s : ℕ) : Option ℕ :=
  if isLineStart t s then (firstNewlineFrom t s).map (· + 1) else none

/-- Leftmost-match scan for `^.*\n` under `re.MULTILINE`: try every start
position `s, s+1, ...` (at most `fuel` of them) in order and return the
first that carries a match. -/
def lineSearchAux (t : List Char) : ℕ → ℕ → Option (ℕ × ℕ)
  | _, 0 => none
  | s, fuel + 1 =>
    match lineMatchAt t s with
    | some e => some (s, e)
    | none => lineSearchAux t (s + 1) fuel

/-- Python `re.compile(r'^.*\n', re.MULTILINE).search(t, pos)`: the
leftmost match starting at or after `pos` (candidate starts are
`pos .. len(t)`). -/
def lineSearch (t : List Char) (pos : ℕ) : Option (ℕ × ℕ) :=
  lineSearchAux t pos (t.length + 1 - pos)

/-- Whether `t[s:e]` is a match of `^.*\n` under `re.MULTILINE`: `s` is a
line start, every character of the span except the last is not a newline,
and the last character of the span is a newline. -/
def lineIsMatch (t : List Char) (s e : ℕ) : Bool :=
  isLineStart t s && decide (s < e) && decide (e ≤ t.length) &&
  ((List.range (e - 1 - s)).all fun k => decide (t.get? (s + k) ≠ some '\n')) &&
  decide (t.get? (e - 1) = some '\n')

/-- The compiled pattern `re.compile(r'^.*\n', re.MULTILINE)` of the
multi-line example, as a `Regex`. -/
def lineRegex : Regex where
  search := lineSearch
  isMatch := lineIsMatch

/-- The text `"line one\nline two\n"` of the multi-line example. -/
def c8Text : List Char := "line one\nline two\n".data

theorem slot_upd1 (s : ClickTimes) (now : ℚ) :
    ∀ K, K ≠ 1 → ClickTimes.slot { s with t1 := now } K = s.slot K := by
  intro K hK
  match K with
  | 0 => rfl
  | 1 => exact absurd rfl hK
  | 2 => rfl
  | 3 => rfl
  | 4 => rfl
  | 5 => rfl
  | (n + 6) => rfl

theorem slot_upd2 (s : ClickTimes) (now : ℚ) :
    ∀ K, K ≠ 2 → ClickTimes.slot { s with t2 := now } K = s.slot K := by
  intro K hK
  match K with
  | 0 => rfl
  | 1 => rfl
  | 2 => exact absurd rfl hK
  | 3 => rfl
  | 4 => rfl
  | 5 => rfl
  | (n + 6) => rfl

theorem slot_upd3 (s : ClickTimes) (now : ℚ) :
    ∀ K, K ≠ 3 → ClickTimes.slot { s with t3 := now } K = s.slot K := by
  intro K hK
  match K with
  | 0 => rfl
  | 1 => rfl
  | 2 => rfl
  | 3 => exact absurd rfl hK
  | 4 => rfl
  | 5 => rfl
  | (n + 6) => rfl

theorem slot_upd4 (s : ClickTimes) (now : ℚ) :
    ∀ K, K ≠ 4 → ClickTimes.slot { s with t4 := now } K = s.slot K := by
  intro K hK
  match K with
  | 0 => rfl
  | 1 => rfl
  | 2 => rfl
  | 3 => rfl
  | 4 => exact absurd rfl hK
  | 5 => rfl
  | (n + 6) => rfl

theorem slot_upd5 (s : ClickTimes) (now : ℚ) :
    ∀ K, K ≠ 5 → ClickTimes.slot { s with t5 := now } K = s.slot K := by
  intro K hK
  match K with
  | 0 => rfl
  | 1 => rfl
  | 2 => rfl
  | 3 => rfl
  | 4 => rfl
  | 5 => exact absurd rfl hK
  | (n + 6) => rfl

/-- Claim C2: the single-press entry point evaluates its rules in strict
order: within interval of the last level-4 time ⇒ record slot 5, emit
level 5; else within interval of the level-3 time ⇒ record slot 4, emit
level 4; else within interval of the level-2 time ⇒ suppress with no
level; else within interval of the level-1 time ⇒ suppress with no level;
else record slot 1 and emit level 1. -/
theorem claimC2_single_press_rule_order (i : ℚ) (s : ClickTimes) (now : ℚ) :
    (withinInterval i now s.t4 = true →
      _handle_1button_press i s now = ⟨false, some 5, { s with t5 := now }⟩) ∧
    (withinInterval i now s.t4 = false → withinInterval i now s.t3 = true →
      _handle_1button_press i s now = ⟨false, some 4, { s with t4 := now }⟩) ∧
    (withinInterval i now s.t4 = false → withinInterval i now s.t3 = false →
      withinInterval i now s.t2 = true →
      _handle_1button_press i s now = ⟨true, none, s⟩) ∧
    (withinInterval i now s.t4 = false → withinInterval i now s.t3 = false →
      withinInterval i now s.t2 = false → withinInterval i now s.t1 = true →
      _handle_1button_press i s now = ⟨true, none, s⟩) ∧
    (withinInterval i now s.t4 = false → withinInterval i now s.t3 = false →
      withinInterval i now s.t2 = false → withinInterval i now s.t1 = false →
      _handle_1button_press i s now = ⟨false, some 1, { s with t1 := now }⟩) := by
  refine ⟨?_, ?_, ?_, ?_, ?_⟩ <;> intros <;> simp_all [_handle_1button_press]

/-- Witness for claim C2: a fresh classifier with interval 2/5 and a press
at time 1 falls through all four interval checks and emits level 1. -/
theorem claimC2_witness :
    _handle_1button_press (2/5) _time_of_last_click 1 =
      ⟨false, some 1, { _time_of_last_click with t1 := 1 }⟩ :=
  (claimC2_single_press_rule_order (2/5) _time_of_last_click 1).2.2.2.2
    (by norm_num [withinInterval, _time_of_last_click])
    (by norm_num [withinInterval, _time_of_last_click])
    (by norm_num [withinInterval, _time_of_last_click])
    (by norm_num [withinInterval, _time_of_last_click])

/-- Claim C4 counterexample: with slot 4 recorded at time 1 and the clock
gone backward to `now = 1/2` (earlier than every recorded click time), the
check `now - _time_of_last_click[4] < interval` succeeds (the difference is
negative), so `_handle_1button_press` classifies the press as level 5 —
not as a fresh single click and not as a suppression. -/
theorem claimC4_counterexample :
    ((1 : ℚ)/2 < 1) ∧
    ¬((_handle_1button_press (2/5) ⟨1, 1, 1, 1, 1⟩ (1/2)).click = some 1 ∨
      (_handle_1button_press (2/5) ⟨1, 1, 1, 1, 1⟩ (1/2)).handled = true) ∧
    (_handle_1button_press (2/5) ⟨1, 1, 1, 1, 1⟩ (1/2)).click = some 5 := by
  refine ⟨by norm_num, ?_, ?_⟩ <;> norm_num [_handle_1button_press, withinInterval]

/-- Claim C4 amended: when the clock goes backward past the slot-4 time
(`now < _time_of_last_click[4]`) and the interval is positive, the level-4
interval check succeeds because the elapsed time is negative, so the
single-press entry point classifies the press as level 5 and records
slot 5; it never raises an error (the handler is a total function). -/
theorem claimC4_clock_backward_classifies_level5 (i : ℚ) (s : ClickTimes) (now : ℚ)
    (hi : 0 < i) (hlt : now < s.t4) :
    _handle_1button_press i s now = ⟨false, some 5, { s with t5 := now }⟩ := by
  have h : withinInterval i now s.t4 = true := by
    simp only [withinInterval, decide_eq_true_eq]
    linarith
  simp [_handle_1button_press, h]

/-- Witness for amended claim C4 at interval 2/5, recorded times all 1, and
`now = 1/2`. -/
theorem claimC4_witness :
    _handle_1button_press (2/5) ⟨1, 1, 1, 1, 1⟩ (1/2) =
      ⟨false, some 5, ⟨1, 1, 1, 1, 1/2⟩⟩ :=
  claimC4_clock_backward_classifies_level5 (2/5) ⟨1, 1, 1, 1, 1⟩ (1/2)
    (by norm_num) (by norm_num)

/-- Claim C5 counterexample: at `now = 0` with interval 2/5, the sentinel
value 0 in slot 4 is inside the interval (`0 - 0 < 2/5`), and the very
first press on a fresh classifier is classified as level 5, so a sentinel
slot can cause a multi-click classification. -/
theorem claimC5_counterexample :
    withinInterval (2/5) 0 _time_of_last_click.t4 = true ∧
    (_handle_1button_press (2/5) _time_of_last_click 0).click = some 5 := by
  have h : withinInterval (2/5) 0 (0 : ℚ) = true := by norm_num [withinInterval]
  constructor
  · simpa [_time_of_last_click] using h
  · simp [_handle_1button_press, _time_of_last_click, h]

/-- Claim C5 amended: for every timestamp `now` at least `max_interval`
(as any wall-clock `time.time()` value is), a slot holding the sentinel 0
fails the interval check, so on a fresh classifier no sentinel slot causes
a multi-click classification or a suppression: the three entry points
emit levels 1, 2 and 3 respectively. -/
theorem claimC5_sentinel_outside_interval (i now : ℚ) (h : i ≤ now) :
    withinInterval i now 0 = false ∧
    _handle_1button_press i _time_of_last_click now =
      ⟨false, some 1, { _time_of_last_click with t1 := now }⟩ ∧
    _handle_2button_press i _time_of_last_click now =
      ⟨false, some 2, { _time_of_last_click with t2 := now }⟩ ∧
    _handle_3button_press i _time_of_last_click now =
      ⟨false, some 3, { _time_of_last_click with t3 := now }⟩ := by
  have hw : withinInterval i now 0 = false := by
    simp only [withinInterval, decide_eq_false_iff_not, not_lt]
    linarith
  refine ⟨hw, ?_, ?_, ?_⟩ <;>
    simp [_handle_1button_press, _handle_2button_press, _handle_3button_press,
      _time_of_last_click, hw]

/-- Witness for amended claim C5 at interval 2/5 and `now = 1`. -/
theorem claimC5_witness :
    withinInterval (2/5) 1 0 = false ∧
    _handle_1button_press (2/5) _time_of_last_click 1 =
      ⟨false, some 1, { _time_of_last_click with t1 := 1 }⟩ ∧
    _handle_2button_press (2/5) _time_of_last_click 1 =
      ⟨false, some 2, { _time_of_last_click with t2 := 1 }⟩ ∧
    _handle_3button_press (2/5) _time_of_last_click 1 =
      ⟨false, some 3, { _time_of_last_click with t3 := 1 }⟩ :=
  claimC5_sentinel_outside_interval (2/5) 1 (by norm_num)

/-- Claim C6: the triple-press entry point suppresses with no level (state
unchanged) exactly when `now` is within the interval of the last level-5
click, and otherwise records `now` at slot 3 and emits level 3. -/
theorem claimC6_triple_press (i : ℚ) (s : ClickTimes) (now : ℚ) :
    (_handle_3button_press i s now = ⟨true, none, s⟩ ↔
      withinInterval i now s.t5 = true) ∧
    (withinInterval i now s.t5 = false →
      _handle_3button_press i s now = ⟨false, some 3, { s with t3 := now }⟩) := by
  cases hb : withinInterval i now s.t5 <;> simp [_handle_3button_press, hb]

/-- Witness for claim C6: on a fresh classifier with interval 2/5 at time
1, the triple press is outside the interval of slot 5 and emits level 3. -/
theorem claimC6_witness :
    _handle_3button_press (2/5) _time_of_last_click 1 =
      ⟨false, some 3, { _time_of_last_click with t3 := 1 }⟩ :=
  (claimC6_triple_press (2/5) _time_of_last_click 1).2
    (by norm_num [withinInterval, _time_of_last_click])

/-- Claim C7 counterexample: from a fresh classifier with interval 2/5, a
single press at `t = 0` is within the interval of the sentinel 0 in slot 4
(`0 - 0 < 2/5`), so the code emits level 5, not level 1 as the claimed
trace requires. -/
theorem claimC7_counterexample :
    (_handle_1button_press (2/5) _time_of_last_click 0).click = some 5 ∧
    (_handle_1button_press (2/5) _time_of_last_click 0).click ≠ some 1 := by
  have h : withinInterval (2/5) 0 (0 : ℚ) = true := by norm_num [withinInterval]
  constructor <;> simp [_handle_1button_press, _time_of_last_click, h]

/-- Claim C7 amended: the claimed trace holds once the start time is at
least `max_interval` past the sentinel 0: from a fresh classifier with
interval 2/5, single press at `t = 1` emits level 1, double press at
`t = 1 + 1/10` emits level 2, and a single press at `t = 1 + 3/20`
is suppressed with no level as the 3rd click of a triple (it is within
the interval of the level-2 click), leaving the state unchanged. -/
theorem claimC7_shifted_trace :
    (_handle_1button_press (2/5) _time_of_last_click 1).click = some 1 ∧
    (_handle_2button_press (2/5)
      (_handle_1button_press (2/5) _time_of_last_click 1).times (11/10)).click =
        some 2 ∧
    (_handle_1button_press (2/5)
      (_handle_2button_press (2/5)
        (_handle_1button_press (2/5) _time_of_last_click 1).times (11/10)).times
      (23/20)).handled = true ∧
    (_handle_1button_press (2/5)
      (_handle_2button_press (2/5)
        (_handle_1button_press (2/5) _time_of_last_click 1).times (11/10)).times
      (23/20)).click = none := by
  have h1 : _handle_1button_press (2/5) _time_of_last_click 1 =
      ⟨false, some 1, ⟨1, 0, 0, 0, 0⟩⟩ := by
    have w : withinInterval (2/5) 1 (0 : ℚ) = false := by norm_num [withinInterval]
    simp [_handle_1button_press, _time_of_last_click, w]
  have h2 : _handle_2button_press (2/5) (⟨1, 0, 0, 0, 0⟩ : ClickTimes) (11/10) =
      ⟨false, some 2, ⟨1, 11/10, 0, 0, 0⟩⟩ := by
    have w : withinInterval (2/5) (11/10) (0 : ℚ) = false := by norm_num [withinInterval]
    simp [_handle_2button_press, w]
  have h3 : _handle_1button_press (2/5) (⟨1, 11/10, 0, 0, 0⟩ : ClickTimes) (23/20) =
      ⟨true, none, ⟨1, 11/10, 0, 0, 0⟩⟩ := by
    have w4 : withinInterval (2/5) (23/20) (0 : ℚ) = false := by norm_num [withinInterval]
    have w2 : withinInterval (2/5) (23/20) (11/10 : ℚ) = true := by
      norm_num [withinInterval]
    simp [_handle_1button_press, w4, w2]
  simp [h1, h2, h3]

/-- Claim C9: every call to any of the three entry points either suppresses
(handled, no level, timestamp record unchanged) or emits exactly one level
L, setting exactly slot L to `now` and leaving every other slot
unchanged. -/
theorem claimC9_frame (i : ℚ) (s : ClickTimes) (now : ℚ) :
    ∀ r ∈ [_handle_1button_press i s now, _handle_2button_press i s now,
        _handle_3button_press i s now],
      (r.handled = true ∧ r.click = none ∧ r.times = s) ∨
      (r.handled = false ∧ ∃ L, r.click = some L ∧ r.times.slot L = now ∧
        ∀ K, K ≠ L → r.times.slot K = s.slot K) := by
  intro r hr
  simp only [List.mem_cons, List.not_mem_nil, or_false] at hr
  rcases hr with rfl | rfl | rfl
  · unfold _handle_1button_press
    split
    · exact Or.inr ⟨rfl, 5, rfl, rfl, slot_upd5 s now⟩
    · split
      · exact Or.inr ⟨rfl, 4, rfl, rfl, slot_upd4 s now⟩
      · split
        · exact Or.inl ⟨rfl, rfl, rfl⟩
        · split
          · exact Or.inl ⟨rfl, rfl, rfl⟩
          · exact Or.inr ⟨rfl, 1, rfl, rfl, slot_upd1 s now⟩
  · unfold _handle_2button_press
    split
    · exact Or.inl ⟨rfl, rfl, rfl⟩
    · exact Or.inr ⟨rfl, 2, rfl, rfl, slot_upd2 s now⟩
  · unfold _handle_3button_press
    split
    · exact Or.inl ⟨rfl, rfl, rfl⟩
    · exact Or.inr ⟨rfl, 3, rfl, rfl, slot_upd3 s now⟩

/-- Witness for claim C9, instantiated at the single-press handler on a
fresh classifier with interval 2/5 and `now = 1`. -/
theorem claimC9_witness :
    ((_handle_1button_press (2/5) _time_of_last_click 1).handled = true ∧
      (_handle_1button_press (2/5) _time_of_last_click 1).click = none ∧
      (_handle_1button_press (2/5) _time_of_last_click 1).times =
        _time_of_last_click) ∨
    ((_handle_1button_press (2/5) _time_of_last_click 1).handled = false ∧
      ∃ L, (_handle_1button_press (2/5) _time_of_last_click 1).click = some L ∧
        (_handle_1button_press (2/5) _time_of_last_click 1).times.slot L = 1 ∧
        ∀ K, K ≠ L →
          (_handle_1button_press (2/5) _time_of_last_click 1).times.slot K =
            _time_of_last_click.slot K) :=
  claimC9_frame (2/5) _time_of_last_click 1
    (_handle_1button_press (2/5) _time_of_last_click 1) (by simp)

theorem firstNlAux_some (t : List Char) :
    ∀ fuel s j, firstNlAux t s fuel = some j →
      s ≤ j ∧ j < t.length ∧ t.get? j = some '\n' ∧
      ∀ k, s ≤ k → k < j → t.get? k ≠ some '\n' := by
  intro fuel
  induction fuel with
  | zero => intro s j h; simp [firstNlAux] at h
  | succ n ih =>
    intro s j h
    unfold firstNlAux at h
    split at h
    next => exact absurd h (by simp)
    next c hg =>
      by_cases hc : c = '\n'
      · rw [if_pos hc] at h
        have hsj : s = j := by simpa using h
        subst hsj
        have hlen : s < t.length := by
          by_contra hcon
          rw [List.get?_eq_none.mpr (by omega)] at hg
          exact Option.noConfusion hg
        refine ⟨le_refl _, hlen, by rw [hg, hc], fun k hk1 hk2 => ?_⟩
        exact absurd hk2 (by omega)
      · rw [if_neg hc] at h
        obtain ⟨h1, h2, h3, h4⟩ := ih (s + 1) j h
        refine ⟨by omega, h2, h3, ?_⟩
        intro k hk1 hk2
        rcases Nat.eq_or_lt_of_le hk1 with heq | hklt
        · rw [← heq, hg]
          simp [hc]
        · exact h4 k (by omega) hk2

theorem lineMatchAt_some (t : List Char) (s e : ℕ) (h : lineMatchAt t s = some e) :
    isLineStart t s = true ∧ s < e ∧ e ≤ t.length ∧ lineIsMatch t s e = true := by
  unfold lineMatchAt at h
  by_cases hls : isLineStart t s
  · rw [if_pos hls] at h
    unfold firstNewlineFrom at h
    cases hj : firstNlAux t s (t.length - s) with
    | none => rw [hj] at h; exact absurd h (by simp)
    | some j =>
      rw [hj] at h
      obtain rfl : j + 1 = e := by simpa using h
      obtain ⟨h1, h2, h3, h4⟩ := firstNlAux_some t _ s j hj
      refine ⟨hls, by omega, by omega, ?_⟩
      unfold lineIsMatch
      simp only [Bool.and_eq_true, decide_eq_true_eq, List.all_eq_true]
      refine ⟨⟨⟨⟨hls, by omega⟩, by omega⟩, ?_⟩, ?_⟩
      · intro k hk
        rw [List.mem_range] at hk
        exact h4 (s + k) (by omega) (by omega)
      · simpa using h3
  · rw [if_neg hls] at h; exact absurd h (by simp)

theorem lineSearchAux_some (t : List Char) :
    ∀ fuel pos s e, lineSearchAux t pos fuel = some (s, e) →
      pos ≤ s ∧ lineMatchAt t s = some e := by
  intro fuel
  induction fuel with
  | zero => intro pos s e h; simp [lineSearchAux] at h
  | succ n ih =>
    intro pos s e h
    unfold lineSearchAux at h
    cases hm : lineMatchAt t pos with
    | some e0 =>
      rw [hm] at h
      obtain ⟨rfl, rfl⟩ : pos = s ∧ e0 = e := by simpa using h
      exact ⟨le_refl _, hm⟩
    | none =>
      rw [hm] at h
      obtain ⟨h1, h2⟩ := ih (pos + 1) s e h
      exact ⟨by omega, h2⟩

theorem lineRegex_honest : lineRegex.Honest := by
  intro t pos s e h
  have h' : lineSearchAux t pos (t.length + 1 - pos) = some (s, e) := h
  obtain ⟨h1, h2⟩ := lineSearchAux_some t _ pos s e h'
  obtain ⟨hls, hlt, hle, hm⟩ := lineMatchAt_some t s e h2
  exact ⟨h1, by omega, hle, hm⟩

theorem findTextLoop_found (r : Regex) (hr : r.Honest) (t : List Char) (pick : ℕ) :
    ∀ fuel pos ms me s e, findTextLoop r t pick fuel pos ms me = (true, s, e) →
      s ≤ pick ∧ pick < e ∧ e ≤ t.length ∧ r.isMatch t s e = true := by
  intro fuel
  induction fuel with
  | zero => intro pos ms me s e h; exact absurd h (by simp [findTextLoop])
  | succ n ih =>
    intro pos ms me s e h
    unfold findTextLoop at h
    by_cases hpos : pos = t.length
    · rw [if_pos hpos] at h; exact absurd h (by simp)
    · rw [if_neg hpos] at h
      split at h
      next => exact absurd h (by simp)
      next s0 e0 hs =>
        by_cases hf : s0 ≤ pick ∧ pick < e0
        · rw [if_pos hf] at h
          obtain ⟨rfl, rfl⟩ : s0 = s ∧ e0 = e := by simpa using h
          obtain ⟨-, -, hb, hm⟩ := hr t pos s0 e0 hs
          exact ⟨hf.1, hf.2, hb, hm⟩
        · rw [if_neg hf] at h
          by_cases hl : pick < s0
          · rw [if_pos hl] at h; exact absurd h (by simp)
          · rw [if_neg hl] at h
            exact ih (nextPos pos s0) s0 e0 s e h

theorem findTextLoop_fuel_succ (r : Regex) (hr : r.Honest) (t : List Char) (pick : ℕ) :
    ∀ fuel pos ms me, t.length + 1 - pos < fuel →
      findTextLoop r t pick fuel pos ms me =
        findTextLoop r t pick (fuel + 1) pos ms me := by
  intro fuel
  induction fuel with
  | zero => intro pos ms me h; exact absurd h (by omega)
  | succ n ih =>
    intro pos ms me hb
    by_cases hpos : pos = t.length
    · simp [findTextLoop, hpos]
    · cases hs : r.search t pos with
      | none => simp [findTextLoop, hpos, hs]
      | some se =>
        obtain ⟨s0, e0⟩ := se
        obtain ⟨hge, hse, hel, -⟩ := hr t pos s0 e0 hs
        by_cases hf : s0 ≤ pick ∧ pick < e0
        · simp [findTextLoop, hpos, hs, hf]
        · by_cases hl : pick < s0
          · simp [findTextLoop, hpos, hs, hf, hl]
          · simp only [findTextLoop, hpos, hs, hf, hl, if_false, if_neg,
              not_false_eq_true]
            exact ih (nextPos pos s0) s0 e0 (by unfold nextPos; split <;> omega)

theorem findTextLoop_fuel_ge (r : Regex) (hr : r.Honest) (t : List Char) (pick : ℕ) :
    ∀ k, findTextLoop r t pick (t.length + 2 + k) 0 0 0 =
      findTextLoop r t pick (t.length + 2) 0 0 0 := by
  intro k
  induction k with
  | zero => rfl
  | succ n ih =>
    have h := findTextLoop_fuel_succ r hr t pick (t.length + 2 + n) 0 0 0 (by omega)
    calc findTextLoop r t pick (t.length + 2 + (n + 1)) 0 0 0
        = findTextLoop r t pick (t.length + 2 + n) 0 0 0 := h.symm
      _ = findTextLoop r t pick (t.length + 2) 0 0 0 := ih

/-- Claim C3: the scanning loop of `_find_text` terminates: on every
iteration that does not exit the loop the cursor strictly increases
(`pos < nextPos pos match_start`) and is bounded by the text length
(`pos < length`), and consequently the loop's result is already reached
within `length + 2` iterations: any larger iteration budget computes the
same result as `_find_text`. -/
theorem claimC3_loop_terminates (r : Regex) (hr : r.Honest) (t : List Char)
    (pick : ℕ) :
    (∀ pos s e, pos ≠ t.length → r.search t pos = some (s, e) →
      ¬(s ≤ pick ∧ pick < e) → ¬(pick < s) →
      pos < nextPos pos s ∧ pos < t.length) ∧
    (∀ fuel, t.length + 2 ≤ fuel →
      findTextLoop r t pick fuel 0 0 0 = _find_text r t pick) := by
  constructor
  · intro pos s e hpos hs hf hl
    obtain ⟨h1, h2, h3, -⟩ := hr t pos s e hs
    constructor
    · unfold nextPos; split <;> omega
    · omega
  · intro fuel hfuel
    obtain ⟨k, rfl⟩ := Nat.exists_eq_add_of_le hfuel
    exact findTextLoop_fuel_ge r hr t pick k

/-- Witness for claim C3 on the text `"a\n"` with pattern `^.*\n` and pick
offset 2: the iteration at cursor 0 does not exit (its match `(0, 2)` does
not contain the pick offset and does not lie past it), the cursor strictly
increases and is below the length, and fuel 5 ≥ length + 2 computes
`_find_text`. -/
theorem claimC3_witness :
    ((0 : ℕ) < nextPos 0 0 ∧ 0 < (['a', '\n'] : List Char).length) ∧
    findTextLoop lineRegex ['a', '\n'] 2 5 0 0 0 = _find_text lineRegex ['a', '\n'] 2 :=
  ⟨(claimC3_loop_terminates lineRegex lineRegex_honest ['a', '\n'] 2).1 0 0 2
      (by decide) (by decide) (by decide) (by decide),
    (claimC3_loop_terminates lineRegex lineRegex_honest ['a', '\n'] 2).2 5 (by decide)⟩

/-- Claim C1: for every text, every pick offset within the text, and every
(honest) compiled pattern, if `_find_text` returns found with span
`(start, end)` then `start ≤ pick < end` and the substring over that span
is a match of the pattern. -/
theorem claimC1_found_span (r : Regex) (hr : r.Honest) (t : List Char) (pick : ℕ)
    (_hpick : pick ≤ t.length) (s e : ℕ)
    (h : _find_text r t pick = (true, s, e)) :
    s ≤ pick ∧ pick < e ∧ r.isMatch t s e = true := by
  obtain ⟨h1, h2, h3, h4⟩ := findTextLoop_found r hr t pick (t.length + 2) 0 0 0 s e h
  exact ⟨h1, h2, h4⟩

/-- Witness for claim C1 on the text `"a\n"` with pattern `^.*\n` at pick
offset 0, where `_find_text` returns `(true, 0, 2)`. -/
theorem claimC1_witness :
    (0 : ℕ) ≤ 0 ∧ 0 < 2 ∧ lineRegex.isMatch ['a', '\n'] 0 2 = true :=
  claimC1_found_span lineRegex lineRegex_honest ['a', '\n'] 0 (by decide) 0 2 (by decide)

/-- Claim C10: for every text and every (honest) pattern, if the pick
offset is at or past the end of the text (including the empty-text case),
`_find_text` reports not found: a found span would require
`pick < end ≤ length`. -/
theorem claimC10_pick_at_or_past_end (r : Regex) (hr : r.Honest) (t : List Char)
    (pick : ℕ) (h : t.length ≤ pick) : (_find_text r t pick).1 = false := by
  rcases hfind : _find_text r t pick with ⟨b, s, e⟩
  cases b
  · rfl
  · exfalso
    obtain ⟨h1, h2, h3, -⟩ :=
      findTextLoop_found r hr t pick (t.length + 2) 0 0 0 s e hfind
    omega

/-- Witness for claim C10 on the text `"a\n"` with pattern `^.*\n` at pick
offset 2 = length. -/
theorem claimC10_witness : (_find_text lineRegex ['a', '\n'] 2).1 = false :=
  claimC10_pick_at_or_past_end lineRegex lineRegex_honest ['a', '\n'] 2 (by decide)

/-- Claim C8: on the text `"line one\nline two\n"` with the pattern `^.*\n`
compiled with the multi-line flag, every pick offset in line two's range
(offsets 9 through 17) makes `_find_text` return found with span
`(9, 18)`, covering exactly the substring `"line two\n"`. -/
theorem claimC8_multiline_example (pick : ℕ) (h9 : 9 ≤ pick) (h17 : pick ≤ 17) :
    _find_text lineRegex c8Text pick = (true, 9, 18) := by
  interval_cases pick <;> decide

/-- Witness for claim C8 at pick offset 10. -/
theorem claimC8_witness : _find_text lineRegex c8Text 10 = (true, 9, 18) :=
  claimC8_multiline_example 10 (by decide) (by decide)
